import Mathlib

/-!
# RoadTemp: a verification development

Shallow embedding of `src/roadtemp/temp.py` (RoadTemp: scoped temporary
file/directory handles and the `TempManager` registry), together with
proofs of the specification's properties.

Modelling conventions:
* a filesystem path is a list of components (`base_dir / name` appends);
* the filesystem is a partial map from paths to objects (file with its
  text content, or directory);
* timestamps are integers (seconds since some epoch), so `datetime.now()`
  becomes an explicit `now : Int` argument;
* the fresh unique name produced from `uuid.uuid4().hex` is abstracted as
  an explicit `name` argument;
* a filesystem removal that raises (permission denied, …) is modelled by
  an oracle `fails : Path → Bool` and an `Except` result at the call site,
  mirroring the `try/except` structure of the source.
-/

namespace RoadTemp

/-- A filesystem path, as its list of components. -/
abbrev Path := List String

/-- `str(path)`: the string form of a path, components joined by `/`. -/
def pathStr (p : Path) : String := String.intercalate "/" p

/-- A filesystem object: a regular file (with its text content) or a directory. -/
inductive FsObj where
  | file (content : String)
  | dir
deriving DecidableEq

/-- The filesystem: a partial map from paths to objects. -/
abbrev Fs := Path → Option FsObj

/-- `path.is_file()`. -/
def isFile (fs : Fs) (p : Path) : Bool :=
  match fs p with
  | some (.file _) => true
  | _ => false

/-- `path.is_dir()`. -/
def isDir (fs : Fs) (p : Path) : Bool :=
  match fs p with
  | some .dir => true
  | _ => false

/-- `path.unlink()`: removes the single path `p` from the filesystem. -/
def removeFile (fs : Fs) (p : Path) : Fs :=
  fun q => if q = p then none else fs q

/-- `shutil.rmtree(path)`: removes `p` together with everything below it. -/
def removeTree (fs : Fs) (p : Path) : Fs :=
  fun q => if p.isPrefixOf q then none else fs q

/-- `path.touch()`: creates an empty file at `p` when nothing is there. -/
def touch (fs : Fs) (p : Path) : Fs :=
  fun q =>
    if q = p then
      match fs p with
      | none => some (.file "")
      | some o => some o
    else fs q

/-- The nonempty prefixes of a path: its ancestors and the path itself. -/
def pathPrefixes (p : Path) : List Path :=
  (List.range p.length).map (fun i => p.take (i + 1))

/-- `Path.mkdir(parents=True, exist_ok=exist_ok)`: creates `p` and its
missing ancestors as directories. `none` models the raised `OSError` when
an ancestor or `p` itself exists as a regular file, or when `p` already
exists and `exist_ok` is false. -/
def mkdir (fs : Fs) (p : Path) (exist_ok : Bool) : Option Fs :=
  if (pathPrefixes p).any (fun q => isFile fs q) then none
  else if !exist_ok && (fs p).isSome then none
  else some (fun q => if (pathPrefixes p).contains q && (fs q).isNone then some .dir else fs q)

/-- `Path.write_text(content)`: creates or overwrites the file at `p`;
`none` models the raised `IsADirectoryError` when a directory is there. -/
def writeText (fs : Fs) (p : Path) (content : String) : Option Fs :=
  if isDir fs p then none
  else some (fun q => if q = p then some (.file content) else fs q)

/-! ## The `TempFile` handle (stream operations) -/

/-- Buffered data of an open temp-file stream, in the handle's fixed mode
(`text=True` gives `str`, otherwise `bytes`). -/
inductive Data where
  | text (s : String)
  | bytes (bs : List Nat)
deriving DecidableEq

/-- `len(data)`: what `file.write(data)` returns for an open stream. -/
def Data.size : Data → Nat
  | .text s => s.length
  | .bytes bs => bs.length

/-- Appending at the stream position; a `TempFile` only ever receives data
in its own mode, so the mismatched cases never arise for it. -/
def Data.append : Data → Data → Data
  | .text s, .text t => .text (s ++ t)
  | .bytes a, .bytes b => .bytes (a ++ b)
  | d, _ => d

/-- A `TempFile` handle: `stream` is `self._file`, `none` before `create()`
and after `close()`, otherwise the buffered content of the open file. -/
structure TempFile where
  text : Bool := true
  stream : Option Data := none
deriving DecidableEq

/-- `TempFile.create()`: opens a fresh empty stream in the handle's mode. -/
def TempFile.create (f : TempFile) : TempFile :=
  { f with stream := some (if f.text then .text "" else .bytes []) }

/-- `TempFile.write(data)`: writes to the open stream and returns the count
written; returns `0` and leaves the handle alone when `self._file` is unset. -/
def TempFile.write (f : TempFile) (d : Data) : TempFile × Nat :=
  match f.stream with
  | some buf => ({ f with stream := some (buf.append d) }, d.size)
  | none => (f, 0)

/-- `TempFile.read()`: seeks to 0 and returns the full buffered content;
returns the empty `str`/`bytes` (per mode) when `self._file` is unset. -/
def TempFile.read (f : TempFile) : Data :=
  match f.stream with
  | some buf => buf
  | none => if f.text then .text "" else .bytes []

/-- `TempFile.close()`: drops the stream; idempotent. -/
def TempFile.close (f : TempFile) : TempFile :=
  { f with stream := none }

/-! ## The `TempDir` handle -/

/-- A `TempDir` handle after `create()`: `path` is the created directory
(`self._path`). -/
structure TempDir where
  path : Path
deriving DecidableEq

/-- `TempDir.file(name, content)`: `p = self._path / name`; only when
`content is not None` does the code create the parent directories and write
the file — with `content=None` nothing touches the filesystem and only the
joined path is returned. A nested `name` such as `"a/b"` is a list of
components. -/
def TempDir.file (d : TempDir) (fs : Fs) (name : List String)
    (content : Option String := none) : Option (Fs × Path) :=
  let p := d.path ++ name
  match content with
  | none => some (fs, p)
  | some c =>
    match mkdir fs p.dropLast true with
    | none => none
    | some fs1 => (writeText fs1 p c).map (fun fs2 => (fs2, p))

/-- `TempDir.subdir(name)`: `(self._path / name).mkdir(parents=True,
exist_ok=True)`, returning the joined path. -/
def TempDir.subdir (d : TempDir) (fs : Fs) (name : List String) : Option (Fs × Path) :=
  let p := d.path ++ name
  (mkdir fs p true).map (fun fs1 => (fs1, p))

/-! ## The `TempManager` registry -/

/-- The `TempFileInfo` dataclass. -/
structure TempFileInfo where
  path : Path
  created : Int
  expires : Option Int := none
  auto_delete : Bool := true
deriving DecidableEq

/-- `TempManager` state: configuration fixed at construction, plus the
registry `self._files` — an insertion-ordered mapping (a Python `dict`)
from `str(path)` to the entry, modelled as an association list. -/
structure TempManager where
  base_dir : Path
  auto_cleanup : Bool := true
  max_age : Int := 3600
  files : List (String × TempFileInfo) := []
deriving DecidableEq

/-- `d[k] = v` on a Python `dict`: replaces in place when the key is
present, otherwise appends (insertion order preserved). -/
def dictInsert (d : List (String × TempFileInfo)) (k : String) (v : TempFileInfo) :
    List (String × TempFileInfo) :=
  if d.any (fun kv => kv.1 = k) then
    d.map (fun kv => if kv.1 = k then (k, v) else kv)
  else d ++ [(k, v)]

/-- `expires = datetime.now() + timedelta(seconds=ttl) if ttl else None`:
Python truthiness makes both `ttl=None` and `ttl=0` produce `None`. -/
def computeExpires (now : Int) (ttl : Option Int) : Option Int :=
  match ttl with
  | some t => if t = 0 then none else some (now + t)
  | none => none

/-- `TempManager.create_file(suffix, prefix, ttl)`: touches a fresh file
under `base_dir` and registers it. The generated unique file name
(prefix + uuid hex + suffix) is abstracted as `name`. -/
def TempManager.create_file (m : TempManager) (fs : Fs) (name : String) (now : Int)
    (ttl : Option Int := none) : TempManager × Fs × Path :=
  let path := m.base_dir ++ [name]
  let fs1 := touch fs path
  ({ m with
      files := dictInsert m.files (pathStr path)
        { path := path, created := now, expires := computeExpires now ttl } },
    fs1, path)

/-- `TempManager.create_dir(prefix, ttl)`: as `create_file` but the path is
created with `path.mkdir(parents=True)` (which raises when it exists). -/
def TempManager.create_dir (m : TempManager) (fs : Fs) (name : String) (now : Int)
    (ttl : Option Int := none) : Option (TempManager × Fs × Path) :=
  let path := m.base_dir ++ [name]
  (mkdir fs path false).map (fun fs1 =>
    ({ m with
        files := dictInsert m.files (pathStr path)
          { path := path, created := now, expires := computeExpires now ttl } },
      fs1, path))

/-- The eligibility test of `TempManager.cleanup` for one entry: forced, or
expired, or over the max age while auto-cleanup is on. -/
def shouldRemove (m : TempManager) (now : Int) (force : Bool) (info : TempFileInfo) : Bool :=
  force
  || (match info.expires with
      | some e => decide (now > e)
      | none => false)
  || (m.auto_cleanup && decide (now - info.created > m.max_age))

/-- The body of the `try` block of `cleanup` for one popped entry: `unlink`
a file, `rmtree` a directory, and make no filesystem call at all when the
path no longer exists. `fails p = true` makes the call at `p` raise, the
`Except.error` being the caught exception. -/
def removePath (fails : Path → Bool) (fs : Fs) (p : Path) : Except String Fs :=
  if isFile fs p then
    if fails p then .error "unlink failed" else .ok (removeFile fs p)
  else if isDir fs p then
    if fails p then .error "rmtree failed" else .ok (removeTree fs p)
  else
    .ok fs

/-- One iteration of the removal loop of `cleanup`: the entry has already
been popped from the registry; when the `try` block completes, `count += 1`;
a caught exception is logged and leaves the counter and filesystem alone. -/
def cleanupStep (fails : Path → Bool) (acc : Fs × Nat) (info : TempFileInfo) : Fs × Nat :=
  match removePath fails acc.1 info.path with
  | .ok fs1 => (fs1, acc.2 + 1)
  | .error _ => acc

/-- `TempManager.cleanup(force)`: collect the eligible keys, then pop each
one from the registry and attempt the filesystem removal. The registry is a
Python `dict` (unique keys, insertion order), so collecting and then popping
the eligible keys partitions the mapping on the eligibility test. Returns
the new manager state, the new filesystem and `count`. Exceptions from the
removal calls are caught inside the loop (`cleanupStep`), so `cleanup` never
raises: it is a total function. -/
def TempManager.cleanup (m : TempManager) (fs : Fs) (fails : Path → Bool) (now : Int)
    (force : Bool := false) : TempManager × Fs × Nat :=
  let removed := m.files.filter (fun kv => shouldRemove m now force kv.2)
  let kept := m.files.filter (fun kv => !shouldRemove m now force kv.2)
  let res := removed.foldl (fun acc kv => cleanupStep fails acc kv.2) (fs, 0)
  ({ m with files := kept }, res.1, res.2)

/-- `TempManager.list()`: snapshot of the tracked entries, in registry
order; it does not modify the registry. -/
def TempManager.list (m : TempManager) : List TempFileInfo :=
  m.files.map (fun kv => kv.2)

/-- `TempManager.__exit__`: manager teardown runs `cleanup(force=True)`. -/
def TempManager.exitScope (m : TempManager) (fs : Fs) (fails : Path → Bool) (now : Int) :
    TempManager × Fs × Nat :=
  m.cleanup fs fails now true

/-- Registry invariant of the manager: every key is the string form of its
entry's path, every tracked path lies under the manager's base directory,
and each path occurs at most once as a key. -/
def RegInv (m : TempManager) : Prop :=
  (∀ kv ∈ m.files, kv.1 = pathStr kv.2.path ∧ m.base_dir <+: kv.2.path)
  ∧ (m.files.map Prod.fst).Nodup

instance (m : TempManager) : Decidable (RegInv m) := by
  unfold RegInv; infer_instance

/-! ## Concrete scenario used by counterexamples and witnesses -/

/-- A concrete base directory. -/
def baseP : Path := ["tmp", "roadtemp"]

/-- A concrete filesystem holding only the base directory. -/
def fsBase : Fs := fun q => if q = baseP then some .dir else none

/-- A concrete manager over `baseP` with the default configuration and an
empty registry. -/
def m0 : TempManager := { base_dir := baseP }

/-! ## Helper lemmas -/

lemma self_mem_dictInsert (d : List (String × TempFileInfo)) (k : String) (v : TempFileInfo) :
    (k, v) ∈ dictInsert d k v := by
  unfold dictInsert
  by_cases h : d.any (fun kv => decide (kv.1 = k)) = true
  · simp only [h, if_true]
    rcases List.any_eq_true.mp h with ⟨kv, hmem, hk⟩
    exact List.mem_map.mpr ⟨kv, hmem, by simp [of_decide_eq_true hk]⟩
  · simp [h]

lemma mem_dictInsert {d : List (String × TempFileInfo)} {k : String} {v : TempFileInfo}
    {kv : String × TempFileInfo} (h : kv ∈ dictInsert d k v) : kv = (k, v) ∨ kv ∈ d := by
  unfold dictInsert at h
  by_cases hc : d.any (fun kv => decide (kv.1 = k)) = true
  · simp only [hc, if_true] at h
    rcases List.mem_map.mp h with ⟨kv', hmem, heq⟩
    by_cases hk : kv'.1 = k
    · left; rw [← heq]; simp [hk]
    · right; rw [← heq]; simpa [hk] using hmem
  · simp only [hc, if_false] at h
    rcases List.mem_append.mp h with h' | h'
    · exact Or.inr h'
    · exact Or.inl (List.mem_singleton.mp h')

lemma keys_nodup_dictInsert {d : List (String × TempFileInfo)} {k : String} {v : TempFileInfo}
    (h : (d.map Prod.fst).Nodup) : ((dictInsert d k v).map Prod.fst).Nodup := by
  unfold dictInsert
  by_cases hc : d.any (fun kv => decide (kv.1 = k)) = true
  · simp only [hc, if_true]
    have heq : (d.map (fun kv => if kv.1 = k then (k, v) else kv)).map Prod.fst
        = d.map Prod.fst := by
      rw [List.map_map]
      apply List.map_congr_left
      intro kv _
      by_cases hk : kv.1 = k <;> simp [hk]
    rw [heq]; exact h
  · rw [if_neg hc, List.map_append, List.nodup_append]
    refine ⟨h, List.nodup_singleton k, ?_⟩
    intro a ha hb
    rcases List.mem_map.mp ha with ⟨kv, hmem, rfl⟩
    have : ¬ (kv.1 = k) := by
      intro hk
      exact hc (List.any_eq_true.mpr ⟨kv, hmem, decide_eq_true hk⟩)
    exact this (List.mem_singleton.mp hb)

lemma cleanup_files_eq (m : TempManager) (fs : Fs) (fails : Path → Bool) (now : Int)
    (force : Bool) :
    (m.cleanup fs fails now force).1.files
      = m.files.filter (fun kv => !shouldRemove m now force kv.2) := rfl

lemma cleanup_config_eq (m : TempManager) (fs : Fs) (fails : Path → Bool) (now : Int)
    (force : Bool) :
    (m.cleanup fs fails now force).1.base_dir = m.base_dir
    ∧ (m.cleanup fs fails now force).1.auto_cleanup = m.auto_cleanup
    ∧ (m.cleanup fs fails now force).1.max_age = m.max_age := ⟨rfl, rfl, rfl⟩

lemma shouldRemove_force (m : TempManager) (now : Int) (info : TempFileInfo) :
    shouldRemove m now true info = true := by
  simp [shouldRemove]

lemma cleanup_force_files_nil (m : TempManager) (fs : Fs) (fails : Path → Bool) (now : Int) :
    (m.cleanup fs fails now true).1.files = [] := by
  rw [cleanup_files_eq, List.filter_eq_nil_iff]
  intro kv _
  simp [shouldRemove_force]

/-- The counter increment of one removal step: the `try` block completes
exactly when the path is absent or the filesystem call does not raise. -/
lemma cleanupStep_count (fails : Path → Bool) (fs : Fs) (c : Nat) (info : TempFileInfo) :
    (cleanupStep fails (fs, c) info).2
      = if (fs info.path).isSome && fails info.path then c else c + 1 := by
  unfold cleanupStep removePath isFile isDir
  rcases h : fs info.path with _ | o
  · simp [h]
  · cases o <;> rcases hf : fails info.path with _ | _ <;> simp [h, hf]

/-- One removal step does not change the filesystem at any path that does
not extend (or equal) the processed entry's path. -/
lemma cleanupStep_apply_of_not_prefix (fails : Path → Bool) (fs : Fs) (c : Nat)
    (info : TempFileInfo) (q : Path) (h : ¬ info.path <+: q) :
    (cleanupStep fails (fs, c) info).1 q = fs q := by
  have hq : q ≠ info.path := by
    intro hqe; exact h (hqe ▸ List.prefix_refl q)
  have hpre : info.path.isPrefixOf q = false := by
    rw [← Bool.not_eq_true, List.isPrefixOf_iff_prefix]; exact h
  unfold cleanupStep removePath isFile isDir removeFile removeTree
  rcases hp : fs info.path with _ | o
  · simp [hp]
  · cases o <;> rcases hf : fails info.path with _ | _ <;> simp [hp, hf, hq, hpre, h]

lemma countP_congr_eq {α : Type} (l : List α) (p q : α → Bool) (h : ∀ a ∈ l, p a = q a) :
    l.countP p = l.countP q := by
  induction l with
  | nil => rfl
  | cons a l ih =>
    rw [List.countP_cons, List.countP_cons, h a (List.mem_cons_self a l),
      ih (fun b hb => h b (List.mem_cons_of_mem a hb))]

/-- The counter after a removal pass over `l`: when no processed path lies
below an earlier processed path, each step sees its entry's original
filesystem status, so the counter counts exactly the entries whose step
raised no error — those whose path is absent, plus those whose removal call
does not fail. -/
lemma cleanup_fold_count (fails : Path → Bool) :
    ∀ (l : List (String × TempFileInfo)) (fs : Fs) (c : Nat),
      (l.map (fun kv => kv.2.path)).Pairwise (fun p q => ¬ p <+: q) →
      (l.foldl (fun acc kv => cleanupStep fails acc kv.2) (fs, c)).2
        = c + l.countP (fun kv => !((fs kv.2.path).isSome && fails kv.2.path))
  | [], fs, c, _ => by simp
  | kv :: l, fs, c, hpw => by
    rw [List.map_cons, List.pairwise_cons] at hpw
    obtain ⟨hhead, htail⟩ := hpw
    have hagree : ∀ kv' ∈ l, (cleanupStep fails (fs, c) kv.2).1 kv'.2.path = fs kv'.2.path := by
      intro kv' hmem
      exact cleanupStep_apply_of_not_prefix fails fs c kv.2 kv'.2.path
        (hhead kv'.2.path (List.mem_map.mpr ⟨kv', hmem, rfl⟩))
    rw [List.foldl_cons]
    have hstep : cleanupStep fails (fs, c) kv.2
        = ((cleanupStep fails (fs, c) kv.2).1, (cleanupStep fails (fs, c) kv.2).2) := rfl
    rw [hstep, cleanup_fold_count fails l _ _ htail]
    rw [countP_congr_eq l _ _
      (fun kv' hmem => by rw [hagree kv' hmem])]
    rw [cleanupStep_count, List.countP_cons]
    by_cases hc : ((fs kv.2.path).isSome && fails kv.2.path) = true
    · simp only [hc, if_true]
      simp [hc]
    · rw [if_neg hc]
      simp only [Bool.not_eq_true] at hc
      simp [hc]
      omega

lemma cleanup_count_eq (m : TempManager) (fs : Fs) (fails : Path → Bool) (now : Int)
    (force : Bool)
    (hsep : ((m.files.filter (fun kv => shouldRemove m now force kv.2)).map
        (fun kv => kv.2.path)).Pairwise (fun p q => ¬ p <+: q)) :
    (m.cleanup fs fails now force).2.2
      = (m.files.filter (fun kv => shouldRemove m now force kv.2)).countP
          (fun kv => !((fs kv.2.path).isSome && fails kv.2.path)) := by
  show ((m.files.filter (fun kv => shouldRemove m now force kv.2)).foldl
      (fun acc kv => cleanupStep fails acc kv.2) (fs, 0)).2 = _
  rw [cleanup_fold_count fails _ fs 0 hsep, Nat.zero_add]

lemma cleanup_eq (m : TempManager) (fs : Fs) (fails : Path → Bool) (now : Int) (force : Bool) :
    m.cleanup fs fails now force
      = ({ m with files := m.files.filter (fun kv => !shouldRemove m now force kv.2) },
         ((m.files.filter (fun kv => shouldRemove m now force kv.2)).foldl
            (fun acc kv => cleanupStep fails acc kv.2) (fs, 0)).1,
         ((m.files.filter (fun kv => shouldRemove m now force kv.2)).foldl
            (fun acc kv => cleanupStep fails acc kv.2) (fs, 0)).2) := rfl

/-- A cleanup pass over an empty registry is the identity and returns 0. -/
lemma cleanup_files_nil (m : TempManager) (fs : Fs) (fails : Path → Bool) (now : Int)
    (force : Bool) (h : m.files = []) :
    m.cleanup fs fails now force = (m, fs, 0) := by
  cases m with
  | mk bd ac ma fl =>
    have h' : fl = [] := h
    subst h'
    rfl

/-! ## More concrete states for counterexamples and witnesses -/

/-- A concrete manager with `auto_cleanup := false`. -/
def mAutoOff : TempManager := { base_dir := baseP, auto_cleanup := false }

/-- A tracked entry whose path is absent from the filesystem. -/
def infoGone : TempFileInfo := { path := baseP ++ ["gone"], created := 0 }

/-- A manager tracking only `infoGone`. -/
def mGone : TempManager :=
  { base_dir := baseP, files := [(pathStr (baseP ++ ["gone"]), infoGone)] }

/-- A tracked entry whose path is the base directory itself (present in
`fsBase` as a directory). -/
def infoBase : TempFileInfo := { path := baseP, created := 0 }

/-- A manager tracking only `infoBase`. -/
def mBase : TempManager := { base_dir := baseP, files := [(pathStr baseP, infoBase)] }

/-- A manager with `auto_cleanup := false` tracking only `infoGone` (which
has no `expires`). -/
def mAutoOffGone : TempManager :=
  { base_dir := baseP, auto_cleanup := false,
    files := [(pathStr (baseP ++ ["gone"]), infoGone)] }

/-- A second absent-path entry, for the forced-cleanup counterexample. -/
def infoGhost : TempFileInfo := { path := baseP ++ ["ghost"], created := 0 }

/-- A manager tracking only `infoGhost`. -/
def mGhost : TempManager :=
  { base_dir := baseP, files := [(pathStr (baseP ++ ["ghost"]), infoGhost)] }

/-- A concrete `TempDir` handle. -/
def dT : TempDir := ⟨["tmp", "d"]⟩

/-- A concrete filesystem holding only `dT`'s directory. -/
def fsT : Fs := fun q => if q = ["tmp", "d"] then some .dir else none

/-! ## Further cleanup lemmas: the filesystem after a removal pass -/

/-- A removal step never re-creates anything: a path that is gone stays gone. -/
lemma cleanupStep_none (fails : Path → Bool) (fs : Fs) (c : Nat) (info : TempFileInfo)
    (q : Path) (h : fs q = none) : (cleanupStep fails (fs, c) info).1 q = none := by
  unfold cleanupStep removePath isFile isDir removeFile removeTree
  rcases hp : fs info.path with _ | o
  · simpa [hp] using h
  · cases o <;> rcases hf : fails info.path with _ | _ <;> simp [hp, hf, h]

/-- Processing an entry whose removal call does not fail leaves nothing at
its path: a present file is unlinked, a present directory is removed
recursively, an absent path stays absent. -/
lemma cleanupStep_own_path (fails : Path → Bool) (fs : Fs) (c : Nat) (info : TempFileInfo)
    (hf : fails info.path = false) : (cleanupStep fails (fs, c) info).1 info.path = none := by
  unfold cleanupStep removePath isFile isDir removeFile removeTree
  rcases hp : fs info.path with _ | o
  · simp [hp]
  · cases o <;> simp [hp, hf]

/-- Gone-ness is preserved by a whole removal pass. -/
lemma cleanup_fold_none (fails : Path → Bool) :
    ∀ (l : List (String × TempFileInfo)) (fs : Fs) (c : Nat) (q : Path), fs q = none →
      ((l.foldl (fun acc kv => cleanupStep fails acc kv.2) (fs, c)).1) q = none
  | [], _, _, _, h => h
  | kv :: l, fs, c, q, h => by
    rw [List.foldl_cons]
    have hstep : cleanupStep fails (fs, c) kv.2
        = ((cleanupStep fails (fs, c) kv.2).1, (cleanupStep fails (fs, c) kv.2).2) := rfl
    rw [hstep]
    exact cleanup_fold_none fails l _ _ q (cleanupStep_none fails fs c kv.2 q h)

/-- After a removal pass in which no removal call fails, nothing remains at
any processed entry's path. -/
lemma cleanup_fold_all_gone (fails : Path → Bool) :
    ∀ (l : List (String × TempFileInfo)) (fs : Fs) (c : Nat),
      (∀ kv ∈ l, fails kv.2.path = false) →
      ∀ kv ∈ l, ((l.foldl (fun acc kv => cleanupStep fails acc kv.2) (fs, c)).1) kv.2.path = none
  | [], _, _, _, _, h => absurd h (List.not_mem_nil _)
  | kv :: l, fs, c, hf, kv', hmem => by
    rw [List.foldl_cons]
    have hstep : cleanupStep fails (fs, c) kv.2
        = ((cleanupStep fails (fs, c) kv.2).1, (cleanupStep fails (fs, c) kv.2).2) := rfl
    rw [hstep]
    rcases List.mem_cons.mp hmem with rfl | hmem'
    · exact cleanup_fold_none fails l _ _ kv'.2.path
        (cleanupStep_own_path fails fs c kv'.2 (hf kv' hmem))
    · exact cleanup_fold_all_gone fails l _ _
        (fun x hx => hf x (List.mem_cons_of_mem kv hx)) kv' hmem'

/-! ## Claims -/

/-- C1, counterexample: `create_file` with `ttl = 0` registers an entry
whose `expires` field is unset (`if ttl` is false for `ttl = 0`), not
`now + 0`; and the subsequent `cleanup(force=False)` removes nothing and
returns 0, leaving the registry unchanged — contradicting the claim that
the entry is already expired, removed and counted. -/
theorem C1_ttl_zero_counterexample :
    ((m0.create_file fsBase "f0" 0 (some 0)).1.files.map (fun kv => kv.2.expires)) = [none]
    ∧ ((m0.create_file fsBase "f0" 0 (some 0)).1.cleanup
        (m0.create_file fsBase "f0" 0 (some 0)).2.1 (fun _ => false) 5 false).2.2 = 0
    ∧ ((m0.create_file fsBase "f0" 0 (some 0)).1.cleanup
        (m0.create_file fsBase "f0" 0 (some 0)).2.1 (fun _ => false) 5 false).1.files
      = (m0.create_file fsBase "f0" 0 (some 0)).1.files :=
  ⟨by decide, by decide, by decide⟩

/-- C1, amended: for every nonzero `ttl` supplied to `create_file` the
registered entry's `expires` is `now + ttl`; but `ttl = 0` is treated like
no ttl at all (Python truthiness), so `create_file(ttl=0)` registers an
entry with `expires` unset, which a subsequent `cleanup(force=False)` keeps
in the registry whenever the max-age policy does not apply (here:
`auto_cleanup = false`). -/
theorem C1_ttl_semantics (m : TempManager) (fs : Fs) (fails : Path → Bool)
    (name : String) (now now' t : Int) :
    (t ≠ 0 →
      (pathStr (m.base_dir ++ [name]),
        ({ path := m.base_dir ++ [name], created := now, expires := some (now + t) } :
          TempFileInfo))
        ∈ (m.create_file fs name now (some t)).1.files)
    ∧ (m.auto_cleanup = false →
        (pathStr (m.base_dir ++ [name]),
          ({ path := m.base_dir ++ [name], created := now, expires := none } : TempFileInfo))
          ∈ ((m.create_file fs name now (some 0)).1.cleanup
              (m.create_file fs name now (some 0)).2.1 fails now' false).1.files) := by
  constructor
  · intro ht
    have hex : computeExpires now (some t) = some (now + t) := by
      simp [computeExpires, ht]
    show _ ∈ dictInsert m.files (pathStr (m.base_dir ++ [name]))
      { path := m.base_dir ++ [name], created := now, expires := computeExpires now (some t) }
    rw [hex]
    exact self_mem_dictInsert _ _ _
  · intro hauto
    have hex : computeExpires now (some 0) = none := rfl
    rw [cleanup_files_eq]
    refine List.mem_filter.mpr ⟨?_, ?_⟩
    · show _ ∈ dictInsert m.files (pathStr (m.base_dir ++ [name]))
        { path := m.base_dir ++ [name], created := now, expires := computeExpires now (some 0) }
      rw [hex]
      exact self_mem_dictInsert _ _ _
    · have hac : (m.create_file fs name now (some 0)).1.auto_cleanup = m.auto_cleanup := rfl
      simp [shouldRemove, hac, hauto]

/-- C1, witness for the amended theorem, at `t = 5` and at `t = 0` over a
manager with `auto_cleanup = false`. -/
theorem C1_ttl_semantics_witness :
    (pathStr (m0.base_dir ++ ["fw"]),
      ({ path := m0.base_dir ++ ["fw"], created := 0, expires := some (0 + 5) } : TempFileInfo))
      ∈ (m0.create_file fsBase "fw" 0 (some 5)).1.files
    ∧ (pathStr (mAutoOff.base_dir ++ ["fw"]),
        ({ path := mAutoOff.base_dir ++ ["fw"], created := 0, expires := none } : TempFileInfo))
        ∈ ((mAutoOff.create_file fsBase "fw" 0 (some 0)).1.cleanup
            (mAutoOff.create_file fsBase "fw" 0 (some 0)).2.1 (fun _ => false) 99 false).1.files :=
  ⟨(C1_ttl_semantics m0 fsBase (fun _ => false) "fw" 0 99 5).1 (by decide),
   (C1_ttl_semantics mAutoOff fsBase (fun _ => false) "fw" 0 99 5).2 (by decide)⟩

/-- C5: `cleanup` is a total function of the embedded state — the removal
exception is caught inside the loop (`cleanupStep`), so it never surfaces —
and every eligible entry is dropped from the registry no matter which
removal calls fail (`fails` is arbitrary, including everywhere-failing). -/
theorem C5_cleanup_fail_open (m : TempManager) (fs : Fs) (fails : Path → Bool) (now : Int)
    (force : Bool) (kv : String × TempFileInfo)
    (helig : shouldRemove m now force kv.2 = true) :
    kv ∉ (m.cleanup fs fails now force).1.files := by
  rw [cleanup_files_eq]
  intro hmem
  have hkeep := (List.mem_filter.mp hmem).2
  rw [helig] at hkeep
  simp at hkeep

/-- C5, witness: an entry whose directory removal fails (`fails` is
everywhere true) is still evicted by a forced cleanup. -/
theorem C5_cleanup_fail_open_witness :
    shouldRemove mBase 0 true infoBase = true
    ∧ (pathStr baseP, infoBase) ∉ (mBase.cleanup fsBase (fun _ => true) 0 true).1.files :=
  ⟨by decide, C5_cleanup_fail_open mBase fsBase (fun _ => true) 0 true _ (by decide)⟩

/-- C6: a second forced cleanup (manager teardown runs `cleanup(force=True)`)
finds the registry empty, changes nothing, and returns 0; being a total
function, it raises no error. -/
theorem C6_teardown_twice (m : TempManager) (fs : Fs) (fails : Path → Bool) (now now' : Int) :
    (m.cleanup fs fails now true).1.cleanup (m.cleanup fs fails now true).2.1 fails now' true
      = ((m.cleanup fs fails now true).1, (m.cleanup fs fails now true).2.1, 0) :=
  cleanup_files_nil _ _ _ _ _ (cleanup_force_files_nil m fs fails now)

/-- C7: with `auto_cleanup = false`, an entry with no `expires` is never
eligible, so `cleanup(force=False)` keeps it in the registry at any `now`;
and when every tracked entry has no `expires`, the whole cleanup pass is
the identity on both registry and filesystem and returns 0. -/
theorem C7_no_ttl_untouched (m : TempManager) (fs : Fs) (fails : Path → Bool) (now : Int)
    (hauto : m.auto_cleanup = false) :
    (∀ kv ∈ m.files, kv.2.expires = none → kv ∈ (m.cleanup fs fails now false).1.files)
    ∧ ((∀ kv ∈ m.files, kv.2.expires = none) → m.cleanup fs fails now false = (m, fs, 0)) := by
  have hsr : ∀ info : TempFileInfo, info.expires = none →
      shouldRemove m now false info = false := by
    intro info he
    simp [shouldRemove, he, hauto]
  constructor
  · intro kv hmem he
    rw [cleanup_files_eq]
    exact List.mem_filter.mpr ⟨hmem, by rw [hsr kv.2 he]; rfl⟩
  · intro hall
    have h1 : m.files.filter (fun kv => shouldRemove m now false kv.2) = [] := by
      rw [List.filter_eq_nil_iff]
      intro kv hmem
      rw [hsr kv.2 (hall kv hmem)]
      simp
    have h2 : m.files.filter (fun kv => !shouldRemove m now false kv.2) = m.files :=
      List.filter_eq_self.mpr (fun kv hmem => by rw [hsr kv.2 (hall kv hmem)]; rfl)
    rw [cleanup_eq, h1, h2]
    rfl

/-- C7, witness: a no-ttl entry in an `auto_cleanup = false` manager
survives a non-forced cleanup run far in the future, untouched. -/
theorem C7_no_ttl_untouched_witness :
    mAutoOffGone.auto_cleanup = false
    ∧ (pathStr (baseP ++ ["gone"]), infoGone)
        ∈ (mAutoOffGone.cleanup fsBase (fun _ => false) 1000000 false).1.files
    ∧ mAutoOffGone.cleanup fsBase (fun _ => false) 1000000 false = (mAutoOffGone, fsBase, 0) := by
  refine ⟨rfl, ?_, ?_⟩
  · exact (C7_no_ttl_untouched mAutoOffGone fsBase (fun _ => false) 1000000 rfl).1
      _ (by decide) rfl
  · exact (C7_no_ttl_untouched mAutoOffGone fsBase (fun _ => false) 1000000 rfl).2 (by decide)

/-- C8: on a handle whose stream is unset — before `create()` or after
`close()` — `write` returns 0 (and changes nothing) and `read` returns the
empty text or byte string according to the handle's mode; both are total
functions of the handle, so neither raises; and `close` always produces
such a handle. -/
theorem C8_noop_on_unopened (f g : TempFile) (d : Data) (h : f.stream = none) :
    (f.write d).2 = 0 ∧ (f.write d).1 = f
    ∧ f.read = (if f.text then Data.text "" else Data.bytes [])
    ∧ (g.close).stream = none := by
  refine ⟨?_, ?_, ?_, rfl⟩ <;> simp [TempFile.write, TempFile.read, h]

/-- C8, witness: a freshly constructed (uncreated) text handle and a closed
binary handle. -/
theorem C8_noop_on_unopened_witness :
    ({ text := true } : TempFile).stream = none
    ∧ (({ text := true } : TempFile).write (Data.text "abc")).2 = 0
    ∧ ({ text := false, stream := some (Data.bytes [1, 2]) } : TempFile).close.read
        = Data.bytes [] := by
  refine ⟨rfl, (C8_noop_on_unopened _ ({ text := true }) (Data.text "abc") rfl).1, ?_⟩
  have h := (C8_noop_on_unopened
    ({ text := false, stream := some (Data.bytes [1, 2]) } : TempFile).close
    ({ text := true }) (Data.text "abc") rfl).2.2.1
  simpa using h

/-- C2, counterexample: a forced cleanup over a single tracked entry whose
path does not exist on the filesystem removes nothing, yet evicts the entry
AND returns 1: `count += 1` sits at the end of the `try` block and also runs
when neither the `is_file` nor the `is_dir` branch fires — contradicting the
claim that such an entry is "evicted but not counted". -/
theorem C2_absent_path_counted :
    fsBase (baseP ++ ["gone"]) = none
    ∧ (mGone.cleanup fsBase (fun _ => false) 0 true).2.2 = 1
    ∧ (mGone.cleanup fsBase (fun _ => false) 0 true).2.1 (baseP ++ ["gone"]) = none
    ∧ (mGone.cleanup fsBase (fun _ => false) 0 true).1.files = [] :=
  ⟨by decide, by decide, by decide, by decide⟩

/-- C2, amended: every eligible entry is dropped from the registry whether
or not its filesystem delete succeeded; and — when no eligible path lies
below another eligible path, so that the removals do not interfere — the
returned count equals the number of eligible entries whose removal raised
no error: an entry whose delete fails is evicted but not counted, while an
entry whose path no longer exists is evicted and still counted. -/
theorem C2_eviction_and_count (m : TempManager) (fs : Fs) (fails : Path → Bool)
    (now : Int) (force : Bool)
    (hsep : ((m.files.filter (fun kv => shouldRemove m now force kv.2)).map
        (fun kv => kv.2.path)).Pairwise (fun p q => ¬ p <+: q)) :
    (m.cleanup fs fails now force).1.files
      = m.files.filter (fun kv => !shouldRemove m now force kv.2)
    ∧ (m.cleanup fs fails now force).2.2
      = (m.files.filter (fun kv => shouldRemove m now force kv.2)).countP
          (fun kv => !((fs kv.2.path).isSome && fails kv.2.path)) :=
  ⟨cleanup_files_eq m fs fails now force, cleanup_count_eq m fs fails now force hsep⟩

/-- C2, witness: a present directory entry whose removal fails is evicted
from the registry but contributes 0 to the count. -/
theorem C2_eviction_and_count_witness :
    ((mBase.files.filter (fun kv => shouldRemove mBase 0 true kv.2)).map
        (fun kv => kv.2.path)).Pairwise (fun p q => ¬ p <+: q)
    ∧ ((mBase.cleanup fsBase (fun _ => true) 0 true).1.files
        = mBase.files.filter (fun kv => !shouldRemove mBase 0 true kv.2)
      ∧ (mBase.cleanup fsBase (fun _ => true) 0 true).2.2
        = (mBase.files.filter (fun kv => shouldRemove mBase 0 true kv.2)).countP
            (fun kv => !((fsBase kv.2.path).isSome && (fun _ => true) kv.2.path)))
    ∧ (mBase.cleanup fsBase (fun _ => true) 0 true).2.2 = 0
    ∧ (mBase.cleanup fsBase (fun _ => true) 0 true).1.files = [] :=
  ⟨by decide, C2_eviction_and_count mBase fsBase (fun _ => true) 0 true (by decide),
   by decide, by decide⟩

/-- C4, counterexample: `cleanup(force=True)` over one entry whose path does
not exist deletes nothing from the filesystem yet returns 1 — not "the
number successfully deleted". -/
theorem C4_force_count_counterexample :
    fsBase (baseP ++ ["ghost"]) = none
    ∧ (mGhost.cleanup fsBase (fun _ => false) 0 true).2.2 = 1
    ∧ (mGhost.cleanup fsBase (fun _ => false) 0 true).2.1 (baseP ++ ["ghost"]) = none :=
  ⟨by decide, by decide, by decide⟩

/-- C4, amended: `cleanup(force=True)` makes every tracked entry eligible
regardless of `expires` or age, evicts all of them (a subsequent `list()`
returns the empty sequence); when no removal call fails, every tracked path
is gone from the filesystem afterwards; and the returned count — the number
of entries processed without a raised error — equals the number of tracked
entries whenever every tracked path exists, no removal fails, and no
tracked path lies below another (so it is then exactly the number
successfully deleted). -/
theorem C4_force_cleanup (m : TempManager) (fs : Fs) (fails : Path → Bool) (now : Int) :
    (m.cleanup fs fails now true).1.files = []
    ∧ (m.cleanup fs fails now true).1.list = []
    ∧ ((∀ kv ∈ m.files, fails kv.2.path = false) →
        ∀ kv ∈ m.files, (m.cleanup fs fails now true).2.1 kv.2.path = none)
    ∧ ((∀ kv ∈ m.files, (fs kv.2.path).isSome ∧ fails kv.2.path = false) →
        (m.files.map (fun kv => kv.2.path)).Pairwise (fun p q => ¬ p <+: q) →
        (m.cleanup fs fails now true).2.2 = m.files.length) := by
  have hall : m.files.filter (fun kv => shouldRemove m now true kv.2) = m.files :=
    List.filter_eq_self.mpr (fun kv _ => shouldRemove_force m now kv.2)
  refine ⟨cleanup_force_files_nil m fs fails now, ?_, ?_, ?_⟩
  · show (m.cleanup fs fails now true).1.files.map _ = []
    rw [cleanup_force_files_nil m fs fails now]
    rfl
  · intro hf kv hmem
    show ((m.files.filter (fun kv => shouldRemove m now true kv.2)).foldl
        (fun acc kv => cleanupStep fails acc kv.2) (fs, 0)).1 kv.2.path = none
    rw [hall]
    exact cleanup_fold_all_gone fails m.files fs 0 hf kv hmem
  · intro hok hsep
    rw [cleanup_count_eq m fs fails now true (by rw [hall]; exact hsep), hall]
    refine List.countP_eq_length.mpr (fun kv hmem => ?_)
    rw [(hok kv hmem).2]
    simp

/-- C4, witness: forced cleanup of a manager tracking one present directory
entry, with no removal failure: registry emptied, `list()` empty, the path
gone, and count 1 = number of tracked entries. -/
theorem C4_force_cleanup_witness :
    (∀ kv ∈ mBase.files, (fsBase kv.2.path).isSome ∧ (fun _ : Path => false) kv.2.path = false)
    ∧ (mBase.cleanup fsBase (fun _ => false) 0 true).1.files = []
    ∧ (mBase.cleanup fsBase (fun _ => false) 0 true).1.list = []
    ∧ (mBase.cleanup fsBase (fun _ => false) 0 true).2.1 infoBase.path = none
    ∧ (mBase.cleanup fsBase (fun _ => false) 0 true).2.2 = mBase.files.length := by
  have h := C4_force_cleanup mBase fsBase (fun _ => false) 0
  exact ⟨by decide, h.1, h.2.1,
    h.2.2.1 (by decide) (pathStr baseP, infoBase) (by decide),
    h.2.2.2 (by decide) (by decide)⟩

/-- Characterization of a successful `mkdir`. -/
lemma mkdir_eq_some_iff {fs : Fs} {p : Path} {exist_ok : Bool} {fs1 : Fs} :
    mkdir fs p exist_ok = some fs1
      ↔ ((pathPrefixes p).any (fun q => isFile fs q) = false
        ∧ (!exist_ok && (fs p).isSome) = false
        ∧ fs1 = fun q =>
            if (pathPrefixes p).contains q && (fs q).isNone then some .dir else fs q) := by
  unfold mkdir
  by_cases h1 : (pathPrefixes p).any (fun q => isFile fs q) = true
  · simp [h1]
  · rw [if_neg h1]
    by_cases h2 : (!exist_ok && (fs p).isSome) = true
    · simp [h1, h2]
    · simp only [Bool.not_eq_true] at h1 h2
      rw [h2]
      simp only [Bool.false_eq_true, if_false, h1, h2, Option.some.injEq, true_and]
      exact ⟨fun he => he.symm, fun he => he.symm⟩

/-- `mkdir(parents=True, exist_ok=True)` is idempotent: once it has
succeeded, running it again on the resulting filesystem succeeds and
changes nothing. -/
lemma mkdir_exist_ok_idem {fs fs1 : Fs} {p : Path} (h : mkdir fs p true = some fs1) :
    mkdir fs1 p true = some fs1 := by
  obtain ⟨h1, _, hF⟩ := mkdir_eq_some_iff.mp h
  have hany : ∀ q ∈ pathPrefixes p, isFile fs q = false := by
    intro q hq
    rw [← Bool.not_eq_true]
    intro hc
    have hT : (pathPrefixes p).any (fun q => isFile fs q) = true :=
      List.any_eq_true.mpr ⟨q, hq, hc⟩
    rw [h1] at hT
    cases hT
  have hstat : ∀ q ∈ pathPrefixes p, fs1 q = some .dir ∨ (fs1 q = fs q ∧ (fs q).isSome) := by
    intro q hq
    have hcont : (pathPrefixes p).contains q = true := List.elem_iff.mpr hq
    rcases hfsq : fs q with _ | o
    · left; rw [hF]; simp [hcont, hfsq, hq]
    · right
      refine ⟨by rw [hF]; simp [hfsq], by simp [hfsq]⟩
  refine mkdir_eq_some_iff.mpr ⟨?_, by simp, ?_⟩
  · rw [← Bool.not_eq_true, List.any_eq_true]
    rintro ⟨q, hq, hfile⟩
    rcases hstat q hq with hdir | ⟨heq, _⟩
    · rw [isFile, hdir] at hfile; cases hfile
    · have hf : isFile fs q = true := by
        unfold isFile at hfile ⊢
        rw [← heq]
        exact hfile
      rw [hany q hq] at hf
      cases hf
  · funext q
    by_cases hq : q ∈ pathPrefixes p
    · have hsome : (fs1 q).isSome = true := by
        rcases hstat q hq with hdir | ⟨heq, hs⟩
        · rw [hdir]; rfl
        · rw [heq]; exact hs
      rcases hs1 : fs1 q with _ | o
      · rw [hs1] at hsome; cases hsome
      · simp
    · simp [hq]

/-- C3, counterexample: `file("x.txt")` with no content performs no
filesystem operation at all — afterwards nothing exists at the returned
path, so no file was created, contradicting the claim that a file is
created "whether or not optional content is supplied". -/
theorem C3_no_content_no_file :
    TempDir.file dT fsT ["x.txt"] none = some (fsT, ["tmp", "d", "x.txt"])
    ∧ fsT ["tmp", "d", "x.txt"] = none :=
  ⟨rfl, by decide⟩

/-- C3, amended: `file(name, content)` with content supplied creates the
parent directories as needed and a file at the joined path containing
exactly that content; `file(name)` with no content only computes and
returns the joined path, leaving the filesystem unchanged and creating
nothing. -/
theorem C3_file_semantics (d : TempDir) (fs : Fs) (name : List String) (c : String)
    (h : (TempDir.file d fs name (some c)).isSome = true) :
    TempDir.file d fs name none = some (fs, d.path ++ name)
    ∧ ∃ r, TempDir.file d fs name (some c) = some r
        ∧ r.2 = d.path ++ name ∧ r.1 r.2 = some (.file c) := by
  refine ⟨rfl, ?_⟩
  obtain ⟨r, hr⟩ := Option.isSome_iff_exists.mp h
  refine ⟨r, hr, ?_⟩
  simp only [TempDir.file] at hr
  split at hr
  · exact absurd hr (by simp)
  · obtain ⟨fs2, hw, hres⟩ := Option.map_eq_some'.mp hr
    subst hres
    refine ⟨rfl, ?_⟩
    unfold writeText at hw
    rename_i fs1 heq
    by_cases hd : isDir fs1 (d.path ++ name) = true
    · rw [if_pos hd] at hw; cases hw
    · rw [if_neg hd] at hw
      have hfs2 := Option.some.inj hw
      show fs2 (d.path ++ name) = some (.file c)
      rw [← hfs2]
      simp

/-- C3, witness: `file("x.txt", "hi")` on a fresh temp directory yields a
file containing exactly `"hi"`; the no-content call leaves the filesystem
as it was. -/
theorem C3_file_semantics_witness :
    (TempDir.file dT fsT ["x.txt"] (some "hi")).isSome = true
    ∧ (TempDir.file dT fsT ["x.txt"] none = some (fsT, dT.path ++ ["x.txt"])
      ∧ ∃ r, TempDir.file dT fsT ["x.txt"] (some "hi") = some r
          ∧ r.2 = dT.path ++ ["x.txt"] ∧ r.1 r.2 = some (.file "hi")) :=
  ⟨by decide, C3_file_semantics dT fsT ["x.txt"] "hi" (by decide)⟩

/-- C9: when `subdir(name)` succeeds — for any `name`, including nested
ones — it returns the joined path, and an immediately repeated call raises
no error and returns the same path over an unchanged filesystem:
`mkdir(parents=True, exist_ok=True)` is idempotent once the directories
exist. -/
theorem C9_subdir_idempotent (d : TempDir) (fs : Fs) (name : List String)
    (h : (d.subdir fs name).isSome = true) :
    ∃ r, d.subdir fs name = some r
      ∧ r.2 = d.path ++ name
      ∧ d.subdir r.1 name = some r := by
  obtain ⟨r, hr⟩ := Option.isSome_iff_exists.mp h
  simp only [TempDir.subdir] at hr
  obtain ⟨fs1, hm, hres⟩ := Option.map_eq_some'.mp hr
  subst hres
  refine ⟨(fs1, d.path ++ name), hr, rfl, ?_⟩
  simp only [TempDir.subdir]
  rw [mkdir_exist_ok_idem hm]
  rfl

/-- C9, witness: `subdir("a/b")` twice on a fresh temp directory. -/
theorem C9_subdir_idempotent_witness :
    (dT.subdir fsT ["a", "b"]).isSome = true
    ∧ ∃ r, dT.subdir fsT ["a", "b"] = some r
        ∧ r.2 = dT.path ++ ["a", "b"]
        ∧ dT.subdir r.1 ["a", "b"] = some r :=
  ⟨by decide, C9_subdir_idempotent dT fsT ["a", "b"] (by decide)⟩

/-- Registering a freshly named entry under the base directory preserves
the registry invariant. -/
lemma regInv_register (m : TempManager) (name : String) (info : TempFileInfo)
    (hpath : info.path = m.base_dir ++ [name]) (h : RegInv m) :
    RegInv { m with files := dictInsert m.files (pathStr info.path) info } := by
  constructor
  · intro kv hkv
    rcases mem_dictInsert hkv with rfl | hmem
    · exact ⟨rfl, by rw [hpath]; exact List.prefix_append _ _⟩
    · exact h.1 kv hmem
  · exact keys_nodup_dictInsert h.2

/-- C10: every `TempManager` operation preserves the registry invariant —
each key equals the string form of its entry's path, each tracked path lies
under the manager's base directory, and each key occurs at most once.
`create_file`/`create_dir` insert an entry keyed by `str(path)` with
`path = base_dir / name`; `cleanup` only evicts entries; `list` is a pure
read of the state (it takes and returns no registry), so it preserves the
invariant trivially. -/
theorem C10_registry_invariant (m : TempManager) (fs : Fs) (fails : Path → Bool)
    (name : String) (now : Int) (ttl : Option Int) (force : Bool) (h : RegInv m) :
    RegInv (m.create_file fs name now ttl).1
    ∧ (∀ r, m.create_dir fs name now ttl = some r → RegInv r.1)
    ∧ RegInv (m.cleanup fs fails now force).1 := by
  refine ⟨?_, ?_, ?_, ?_⟩
  · exact regInv_register m name
      { path := m.base_dir ++ [name], created := now, expires := computeExpires now ttl } rfl h
  · intro r hr
    simp only [TempManager.create_dir] at hr
    obtain ⟨fs1, hm, hres⟩ := Option.map_eq_some'.mp hr
    subst hres
    exact regInv_register m name
      { path := m.base_dir ++ [name], created := now, expires := computeExpires now ttl } rfl h
  · intro kv hkv
    rw [cleanup_files_eq] at hkv
    exact h.1 kv (List.mem_filter.mp hkv).1
  · have hsub : ((m.cleanup fs fails now force).1.files.map Prod.fst).Sublist
        (m.files.map Prod.fst) := by
      rw [cleanup_files_eq]
      exact (List.filter_sublist m.files).map Prod.fst
    exact h.2.sublist hsub

/-- C10, witness: the invariant holds for the empty manager and is kept by
a concrete `create_file`. -/
theorem C10_registry_invariant_witness :
    RegInv m0 ∧ RegInv (m0.create_file fsBase "f" 0 none).1 :=
  ⟨by decide,
   (C10_registry_invariant m0 fsBase (fun _ => false) "f" 0 none false (by decide)).1⟩

end RoadTemp
